import Mathlib

/-!
Verification of the ECOWAS World-Bank ETL pipeline
(`dags/includes/extraction.py`, `dags/includes/validation.py`,
`dags/includes/database.py`, `dags/util/config.py`).

The Python pipeline is shallowly embedded: DataFrames become lists of
records / a wide-table structure, `pandas.pivot_table` becomes an explicit
group-and-aggregate over those lists, the pandera schema becomes a decidable
error-collecting checker, and the Postgres staging + `ON CONFLICT` merge
becomes a pure function on lists of destination rows.  Numeric observation
values are modelled as `ℚ` (the claims under study concern aggregation
policy, column order, and key semantics, none of which depend on binary
floating-point rounding).
-/

set_option autoImplicit false

namespace WB

/-! ## Configuration (`dags/util/config.py`)

Python dicts preserve insertion order, so the config dictionaries are
embedded as ordered association lists. -/

/-- The `indicators` dict of `config.py`: World-Bank indicator code to
descriptive name, in source (insertion) order. -/
def indicators : List (String × String) :=
  [ ("AG.PRD.FOOD.XD", "Food production index"),
    ("AG.YLD.CREL.KG", "Cereal yield (kg per hectare)"),
    ("AG.PRD.CROP.XD", "Crop production index"),
    ("AG.LND.AGRI.ZS", "Agricultural land (% of land area)"),
    ("NY.GDP.PCAP.CD", "GDP per capita (current US$)"),
    ("FP.CPI.TOTL", "Consumer Price Index, Food (2010 = 100)"),
    ("TM.VAL.FOOD.ZS.UN", "Food imports (% of merchandise imports)"),
    ("TX.VAL.FOOD.ZS.UN", "Food exports (% of merchandise exports)"),
    ("SP.POP.TOTL", "Total population"),
    ("SP.URB.TOTL.IN.ZS", "Urban population (% of total)"),
    ("SP.POP.GROW", "Population growth (annual %)") ]

/-- The `indicators_column_names` dict of `config.py`: indicator code to
wide-format column name, in source (insertion) order. -/
def indicators_column_names : List (String × String) :=
  [ ("AG.PRD.FOOD.XD", "food_production_idx"),
    ("AG.YLD.CREL.KG", "cereal_yield_kg_per_hectare"),
    ("AG.PRD.CROP.XD", "crop_production_idx"),
    ("AG.LND.AGRI.ZS", "agricultural_land_pct"),
    ("NY.GDP.PCAP.CD", "gdp_per_capita_usd"),
    ("FP.CPI.TOTL", "food_cpi_2010_base_100"),
    ("TM.VAL.FOOD.ZS.UN", "food_imports_pct_merch"),
    ("TX.VAL.FOOD.ZS.UN", "food_exports_pct_merch"),
    ("SP.POP.TOTL", "population_total"),
    ("SP.URB.TOTL.IN.ZS", "population_urban_pct"),
    ("SP.POP.GROW", "population_growth_annual_pct") ]

/-- `start_year` from `config.py`. -/
def start_year : Int := 1999

/-- `end_year` from `config.py`. -/
def end_year : Int := 2022

/-- `database_table_name` from `config.py`. -/
def database_table_name : String := "west_african_agri_metrics_wide"

/-- `dict.get`: first binding of the key in the association list. -/
def dictGet (m : List (String × String)) (k : String) : Option String :=
  (m.find? (fun p => p.1 == k)).map (fun p => p.2)

/-! ## Raw data and flattening (`extraction.py`, `transform_to_dataframe`) -/

/-- One element of the raw JSON artifact, with the fields
`transform_to_dataframe` reads out of it (`entry.get(...)`; any of them may
be missing/null).  `value` arrives as a JSON number or null. -/
structure RawEntry where
  country_name : Option String
  countryiso3code : Option String
  date : Option String
  indicator_id : Option String
  value : Option ℚ
deriving DecidableEq, Repr

/-- One row of the long-form DataFrame built by the `records.append({...})`
loop, after the `pd.to_numeric(..., errors="coerce")` coercions. -/
structure Record where
  country_name : Option String
  country_iso3 : Option String
  year : Option Int
  indicator_code : Option String
  indicator_name : Option String
  value : Option ℚ
deriving DecidableEq, Repr

/-- Digit-by-digit parse of a non-empty digit string to a number. -/
def parseDigits (cs : List Char) : Option Nat :=
  if cs.isEmpty then none
  else cs.foldl
    (fun acc c => acc.bind
      (fun n => if c.isDigit then some (n * 10 + (c.toNat - 48)) else none))
    (some 0)

/-- Integer parse of a string: an optional minus sign followed by digits;
anything else fails. -/
def parseInt (s : String) : Option Int :=
  match s.data with
  | '-' :: rest => (parseDigits rest).map (fun n => -(n : Int))
  | cs => (parseDigits cs).map (fun n => (n : Int))

/-- `pd.to_numeric(errors="coerce")` on the `year` strings (four-digit year
numerals from the World Bank `date` field): an integer parse, with
unparseable (or missing) input becoming null. -/
def coerceYear (s : Option String) : Option Int :=
  s.bind parseInt

/-- The row dictionary built for one raw entry (flattening +
`indicators.get` name resolution + numeric coercion of `year`;
`value` is already numeric-or-null). -/
def toRecord (e : RawEntry) : Record :=
  { country_name := e.country_name
    country_iso3 := e.countryiso3code
    year := coerceYear e.date
    indicator_code := e.indicator_id
    indicator_name := e.indicator_id.bind (fun c => dictGet indicators c)
    value := e.value }

/-! ## The pivot (`df.pivot_table(index=[country_name, country_iso3, year],
columns="indicator_code", values="value")`)

`pivot_table` groups by the four keys (rows with a null in any grouping key
are dropped), aggregates colliding `value`s with its default `aggfunc`
`"mean"` (which ignores nulls), drops groups whose aggregate is null
(`dropna(how="all")` before unstacking — this removes both all-null groups
and, after unstacking, would-be all-null rows and columns), and unstacks
`indicator_code` into columns, sorted lexicographically.  Row order in
pandas is likewise sorted; none of the properties below depend on row
order, and rows are enumerated here in order of last occurrence
(`List.dedup`). -/

/-- A pivot row key: (country_name, country_iso3, year), all non-null. -/
abbrev Key := String × String × Int

/-- The grouping key of a record, if all three index fields are non-null. -/
def keyOf (r : Record) : Option Key :=
  match r.country_name, r.country_iso3, r.year with
  | some n, some i, some y => some (n, i, y)
  | _, _, _ => none

/-- Whether a record enters the pivot's groupby at all: all four grouping
keys (the three index fields and `indicator_code`) non-null. -/
def grouped (r : Record) : Bool :=
  (keyOf r).isSome && r.indicator_code.isSome

/-- The non-null observation values of the (key, indicator_code) group. -/
def cellValues (rs : List Record) (k : Key) (c : String) : List ℚ :=
  (rs.filter (fun r => keyOf r == some k && r.indicator_code == some c)).filterMap
    (fun r => r.value)

/-- Rational addition written through `mkRat` so that it evaluates inside
the kernel; proved equal to `+` on `ℚ` in `qAdd_eq_add` below. -/
def qAdd (a b : ℚ) : ℚ :=
  mkRat (a.num * b.den + b.num * a.den) (a.den * b.den)

/-- Kernel-computable list sum on `ℚ`; proved equal to `List.sum` in
`qSum_eq_sum` below. -/
def qSum (vs : List ℚ) : ℚ :=
  vs.foldr qAdd 0

/-- Kernel-computable division of a rational by a natural; proved equal to
`a / n` in `qDivNat_eq_div` below. -/
def qDivNat (a : ℚ) (n : Nat) : ℚ :=
  mkRat a.num (a.den * n)

/-- One aggregated pivot cell: the mean of the group's non-null values
(`aggfunc="mean"`, skipping nulls); null when the group is absent or
entirely null.  (`cell_eq_mean` below restates the value as
`sum / length`.) -/
def cell (rs : List Record) (k : Key) (c : String) : Option ℚ :=
  let vs := cellValues rs k c
  if vs.isEmpty then none else some (qDivNat (qSum vs) vs.length)

/-- Whether the key's row survives `dropna`: some indicator of the group has
a non-null observation. -/
def hasValue (rs : List Record) (k : Key) : Bool :=
  rs.any (fun r => keyOf r == some k && r.value.isSome && r.indicator_code.isSome)

/-- The distinct row keys of the pivot result (all-null rows dropped). -/
def rowKeys (rs : List Record) : List Key :=
  (((rs.filter grouped).filterMap keyOf).dedup).filter (fun k => hasValue rs k)

/-- Lexicographic comparison of character lists by code point. -/
def charsLe : List Char → List Char → Bool
  | [], _ => true
  | _ :: _, [] => false
  | a :: as, b :: bs =>
    if a.toNat < b.toNat then true
    else if b.toNat < a.toNat then false
    else charsLe as bs

/-- String order (by Unicode code point) used by pandas when sorting the
unstacked column labels. -/
def strLe (a b : String) : Bool := charsLe a.data b.data

/-- Insert into a `strLe`-sorted list. -/
def insertStr (x : String) : List String → List String
  | [] => [x]
  | y :: ys => if strLe x y then x :: y :: ys else y :: insertStr x ys

/-- Lexicographic insertion sort on strings. -/
def sortStrings (l : List String) : List String :=
  l.foldr insertStr []

/-- The pivot's column labels: the distinct indicator codes of grouped
records that yield at least one non-null cell, sorted lexicographically. -/
def pivotCodes (rs : List Record) : List String :=
  (sortStrings (((rs.filter grouped).filterMap (fun r => r.indicator_code)).dedup)).filter
    (fun c => (rowKeys rs).any (fun k => (cell rs k c).isSome))

/-- Rename an indicator-code column via `indicators_column_names`
(`df_wide.rename(columns=...)`): codes absent from the mapping keep their
raw code as the column name. -/
def renameCol (c : String) : String :=
  (dictGet indicators_column_names c).getD c

/-- The wide DataFrame: its column labels in order, its row keys, and its
cells addressed by (row key, post-rename column label). -/
@[ext]
structure WideTable where
  columns : List String
  keys : List Key
  cellAt : Key → String → Option ℚ

/-- The wide table produced by pivoting, then renaming the indicator-code
columns to their configured names. -/
def pivotTable (rs : List Record) : WideTable :=
  { columns := ["country_name", "country_iso3", "year"] ++ (pivotCodes rs).map renameCol
    keys := rowKeys rs
    cellAt := fun k colName =>
      match (pivotCodes rs).find? (fun c => renameCol c == colName) with
      | some c => cell rs k c
      | none => none }

/-- The completely empty DataFrame `pd.DataFrame()` returned for an empty
artifact: no columns, no rows. -/
def emptyWide : WideTable :=
  { columns := [], keys := [], cellAt := fun _ _ => none }

/-- The state of the intermediate JSON artifact at `json_folder`. -/
inductive Artifact where
  | absent
  | present (entries : List RawEntry)

/-- `transform_to_dataframe`: open and deserialize the artifact (an absent
file makes `open` raise `FileNotFoundError`), return an empty DataFrame for
an empty list, otherwise flatten, coerce, pivot and rename. -/
def transform_to_dataframe : Artifact → Except String WideTable
  | Artifact.absent => Except.error "FileNotFoundError"
  | Artifact.present entries =>
      if entries.isEmpty then Except.ok emptyWide
      else Except.ok (pivotTable (entries.map toRecord))

/-! ## Validation (`validation.py`, `get_wide_schema`; `extraction.py`,
`validate_data`)

The pandera `DataFrameSchema` is embedded as an error-collecting checker
(`lazy=True` collects every violation before raising): `strict=True`
rejects columns outside the schema, each `pa.Column` is `required` by
default so absent schema columns are also rejected, the per-column checks
are the regex/range/non-negativity checks of `get_wide_schema`, and
`unique=["country_iso3", "year"]` demands joint uniqueness of the pair. -/

/-- The column set declared by `get_wide_schema`: the three identifier
columns plus the configured indicator column names. -/
def schemaColumns : List String :=
  ["country_name", "country_iso3", "year"] ++ indicators_column_names.map (fun p => p.2)

/-- The indicator columns carrying a `pa.Check.ge(0)` in `get_wide_schema`
(`food_production_idx`, `crop_production_idx` and
`population_growth_annual_pct` carry no check). -/
def nonnegColumns : List String :=
  [ "cereal_yield_kg_per_hectare", "agricultural_land_pct", "gdp_per_capita_usd",
    "food_cpi_2010_base_100", "food_imports_pct_merch", "food_exports_pct_merch",
    "population_total", "population_urban_pct" ]

/-- The `str_matches(r'^[A-Z]{3}$')` check on `country_iso3`. -/
def iso3Matches (s : String) : Bool :=
  s.length == 3 && s.toList.all (fun ch => decide ('A' ≤ ch) && decide (ch ≤ 'Z'))

/-- The `ge(start_year)` / `le(end_year)` checks on `year`. -/
def yearInRange (y : Int) : Bool :=
  decide (start_year ≤ y) && decide (y ≤ end_year)

/-- The `(country_iso3, year)` pair of each row, in row order. -/
def pairKeys (t : WideTable) : List (String × Int) :=
  t.keys.map (fun k => (k.2.1, k.2.2))

/-- Violations of `strict=True`: table columns outside the schema. -/
def strictViolations (t : WideTable) : List String :=
  (t.columns.filter (fun c => !(schemaColumns.contains c))).map
    (fun c => "column not in schema: " ++ c)

/-- Violations of the per-column `required` default: schema columns missing
from the table. -/
def requiredViolations (t : WideTable) : List String :=
  (schemaColumns.filter (fun c => !(t.columns.contains c))).map
    (fun c => "column not in dataframe: " ++ c)

/-- Row-level violations of the identifier-column checks. -/
def rowViolations (t : WideTable) : List String :=
  (t.keys.filter (fun k => !(iso3Matches k.2.1 && yearInRange k.2.2))).map
    (fun k => "bad identifier row: " ++ k.2.1)

/-- Violations of the non-negativity checks on indicator columns present in
the table (null cells are allowed, `nullable=True`). -/
def nonnegViolations (t : WideTable) : List String :=
  (t.columns.filter (fun c => nonnegColumns.contains c)).flatMap (fun c =>
    (t.keys.filter (fun k =>
        match t.cellAt k c with
        | some v => decide (v < 0)
        | none => false)).map
      (fun k => "negative value in " ++ c ++ " for " ++ k.2.1))

/-- Violation of `unique=["country_iso3", "year"]`. -/
def uniqueViolations (t : WideTable) : List String :=
  if (pairKeys t).Nodup then [] else ["(country_iso3, year) pair duplicated"]

/-- All schema violations, collected lazily (no short-circuit). -/
def schemaViolations (t : WideTable) : List String :=
  strictViolations t ++ requiredViolations t ++ rowViolations t ++
    nonnegViolations t ++ uniqueViolations t

/-- `schema.validate(df, lazy=True)` inside `validate_data`: succeeds with
the input unchanged when no violation is collected, otherwise raises
`SchemaErrors` carrying all of them (re-raised by `validate_data`). -/
def validateWide (t : WideTable) : Except (List String) WideTable :=
  if (schemaViolations t).isEmpty then Except.ok t
  else Except.error (schemaViolations t)

/-- `validate_data`: re-runs `transform_to_dataframe` on the artifact and
validates the result against the wide schema. -/
def validate_data (a : Artifact) : Except String (Except (List String) WideTable) :=
  (transform_to_dataframe a).map validateWide

/-! ## The loader (`database.py`) -/

/-- The destination column order declared by `create_metric_table`: the
three fixed columns, then one column per entry of
`indicators_column_names.values()` in configuration order. -/
def create_metric_table_columns : List String :=
  ["country_name", "country_iso3", "year"] ++ indicators_column_names.map (fun p => p.2)

/-- One row of the destination (or staging) table: the fixed columns plus
the indicator columns in destination declaration order (`FLOAT` columns are
nullable). -/
structure DBRow where
  country_name : String
  country_iso3 : String
  year : Int
  vals : List (Option ℚ)
deriving DecidableEq, Repr

/-- The `(country_iso3, year)` primary key of a destination row. -/
def rowKey (r : DBRow) : String × Int := (r.country_iso3, r.year)

/-- A destination (or staging) table state: its rows in order. -/
abbrev DBTable := List DBRow

/-- Whether a table's primary-key values are pairwise distinct (guaranteed
for the destination by its `PRIMARY KEY (country_iso3, year)`). -/
def nodupKeys (t : DBTable) : Prop := (t.map rowKey).Nodup

instance (t : DBTable) : Decidable (nodupKeys t) := by
  unfold nodupKeys
  infer_instance

/-- The destination row stored under a key, if any. -/
def lookupKey (t : DBTable) (k : String × Int) : Option DBRow :=
  t.find? (fun r => rowKey r == k)

/-- The `DO UPDATE SET` clause applied to one destination row: when the key
conflicts, every non-key column (`country_name` and all indicator columns)
is overwritten with the `EXCLUDED` (staging) value; other rows are
untouched. -/
def overwriteWith (s d : DBRow) : DBRow :=
  if rowKey d == rowKey s then
    { d with country_name := s.country_name, vals := s.vals }
  else d

/-- The effect of one staging row under
`INSERT ... SELECT * FROM staging ON CONFLICT (country_iso3, year) DO UPDATE
SET country_name = EXCLUDED.country_name, <every other non-key column> =
EXCLUDED.<column>`: a conflicting destination row has every non-key column
overwritten with the staging value; otherwise the staging row is inserted. -/
def upsertRow (dest : DBTable) (s : DBRow) : DBTable :=
  if dest.any (fun d => rowKey d == rowKey s) then dest.map (overwriteWith s)
  else dest ++ [s]

/-- The merge step of `load_dataframe_to_postgres` (lines 91-104): the whole
staging table merged into the destination by the single set-based
`INSERT ... ON CONFLICT ... DO UPDATE` statement. -/
def merge (dest staging : DBTable) : DBTable :=
  staging.foldl upsertRow dest

/-- Outcome of the load stage as the orchestrator sees it. -/
inductive LoadResult where
  | ok (dest : DBTable)
  | raisedAfterCommit (dest : DBTable) (warning : String)
deriving Repr

/-- The tail of `load_dataframe_to_postgres` (lines 112-119): after the
merge has committed, `os.remove(json_folder)` is attempted; the `except`
block logs a warning and then executes a bare `raise`, so a cleanup failure
re-raises out of the stage.  `cleanupFails` abstracts `os.remove` raising
(e.g. a permission error). -/
def loadAfterCommit (merged : DBTable) (cleanupFails : Bool) : LoadResult :=
  if cleanupFails then
    LoadResult.raisedAfterCommit merged "Failed to delete temporary file"
  else LoadResult.ok merged

/-- `load_dataframe_to_postgres`, given the staging rows already landed:
commit the merge into the destination, then run the cleanup block. -/
def load_dataframe_to_postgres (dest staging : DBTable) (cleanupFails : Bool) :
    LoadResult :=
  loadAfterCommit (merge dest staging) cleanupFails

/-! ## The extractor (`extraction.py`, `extract_world_bank_data`) -/

/-- What one indicator's fetch contributes, as the `try` block sees it:
either a parsed `[metadata, records]` envelope whose `data[1]` holds the
listed entries (possibly empty, logged as a warning), or one of the caught
exception classes (logged as an error, loop continues). -/
inductive FetchOutcome where
  | envelope (entries : List RawEntry)
  | httpError
  | requestError
  | jsonDecodeError
deriving DecidableEq, Repr

/-- The observable result of `extract_world_bank_data`.  The function body
never raises after the per-indicator `try`/`except`: it either writes the
accumulated entries to the artifact and returns `None`, or — when
`all_data` is empty — logs `"Extraction failed."` and returns `None`
without writing. -/
structure ExtractResult where
  raised : Bool
  artifact : Option (List RawEntry)
deriving DecidableEq, Repr

/-- `extract_world_bank_data`, given the per-indicator fetch outcomes in
loop order: accumulate every envelope's entries, then either write the
artifact or `return None` when nothing was collected. -/
def extract_world_bank_data (outcomes : List FetchOutcome) : ExtractResult :=
  let all_data := outcomes.foldl
    (fun acc o =>
      match o with
      | FetchOutcome.envelope entries => acc ++ entries
      | _ => acc) []
  if all_data.isEmpty then { raised := false, artifact := none }
  else { raised := false, artifact := some all_data }

/-! ## Concrete pipeline inputs used in the theorems below -/

/-- A raw artifact entry with every field present. -/
def mkEntry (n i y c : String) (v : Option ℚ) : RawEntry :=
  { country_name := some n, countryiso3code := some i, date := some y,
    indicator_id := some c, value := v }

/-- An artifact carrying one observation for every configured indicator
(same country and year), so the wide table has the full indicator column
set. -/
def full11 : List RawEntry :=
  indicators.map (fun p => mkEntry "Nigeria" "NGA" "2020" p.1 (some 1))

/-- An artifact covering every configured indicator except the first
(`AG.PRD.FOOD.XD`), so the wide table lacks the `food_production_idx`
column. -/
def missing10 : List RawEntry :=
  (indicators.drop 1).map (fun p => mkEntry "Nigeria" "NGA" "2020" p.1 (some 1))

/-- `full11` plus one observation under an indicator code that is absent
from `indicators_column_names`, so its raw code survives as an unexpected
wide-table column. -/
def extra12 : List RawEntry :=
  full11 ++ [mkEntry "Nigeria" "NGA" "2020" "XX.FAKE.CODE" (some 1)]

/-- Three observations colliding on the same
(country_name, country_iso3, year, indicator_code) group: values 100,
null, 106 in input order. -/
def dupEntries : List RawEntry :=
  [ mkEntry "Nigeria" "NGA" "2020" "AG.PRD.FOOD.XD" (some 100),
    mkEntry "Nigeria" "NGA" "2020" "AG.PRD.FOOD.XD" none,
    mkEntry "Nigeria" "NGA" "2020" "AG.PRD.FOOD.XD" (some 106) ]

/-- Two observations sharing `(country_iso3, year) = (NGA, 2020)` but
carrying two different country names. -/
def dupNameEntries : List RawEntry :=
  [ mkEntry "Nigeria" "NGA" "2020" "AG.PRD.FOOD.XD" (some 1),
    mkEntry "Federal Nigeria" "NGA" "2020" "AG.PRD.FOOD.XD" (some 2) ]

/-- The indicator-column values of a destination row holding
`food_production_idx = v` (the first indicator column) and nulls
elsewhere. -/
def valsWithFood (v : ℚ) : List (Option ℚ) :=
  some v :: List.replicate 10 none

/-- The destination row `(NGA, 2020, food_production_idx = 100.0)` of the
merge scenario. -/
def ngaDest : DBRow :=
  { country_name := "Nigeria", country_iso3 := "NGA", year := 2020,
    vals := valsWithFood 100 }

/-- The staging row `(NGA, 2020, food_production_idx = 105.0,
entity_name = "Nigeria")` of the merge scenario. -/
def ngaStaging : DBRow :=
  { country_name := "Nigeria", country_iso3 := "NGA", year := 2020,
    vals := valsWithFood 105 }

/-! ## Arithmetic bridge lemmas: the kernel-computable rational operations
agree with the standard ones -/

theorem qAdd_eq_add (a b : ℚ) : qAdd a b = a + b := by
  have ha : ((a.den : ℚ)) ≠ 0 := Nat.cast_ne_zero.mpr (Rat.den_ne_zero a)
  have hb : ((b.den : ℚ)) ≠ 0 := Nat.cast_ne_zero.mpr (Rat.den_ne_zero b)
  rw [qAdd, Rat.mkRat_eq_div]
  push_cast
  rw [show (a : ℚ) + b = (a.num : ℚ) / a.den + (b.num : ℚ) / b.den by
      rw [Rat.num_div_den, Rat.num_div_den],
    div_add_div _ _ ha hb]
  ring_nf

theorem qSum_eq_sum (vs : List ℚ) : qSum vs = vs.sum := by
  induction vs with
  | nil => rfl
  | cons a t ih =>
    rw [List.sum_cons, ← ih]
    exact qAdd_eq_add a (qSum t)

theorem qDivNat_eq_div (a : ℚ) (n : Nat) : qDivNat a n = a / n := by
  rcases Nat.eq_zero_or_pos n with rfl | hn
  · rw [qDivNat, Nat.mul_zero, Rat.mkRat_zero]
    simp
  · have ha : ((a.den : ℚ)) ≠ 0 := Nat.cast_ne_zero.mpr (Rat.den_ne_zero a)
    rw [qDivNat, Rat.mkRat_eq_div]
    push_cast
    rw [← div_div, Rat.num_div_den]

theorem cell_eq_mean (rs : List Record) (k : Key) (c : String) :
    cell rs k c =
      if (cellValues rs k c).isEmpty then none
      else some ((cellValues rs k c).sum / ((cellValues rs k c).length : ℚ)) := by
  rw [cell, qDivNat_eq_div, qSum_eq_sum]

/-! ## Lemmas about the staging merge -/

theorem rowKey_overwriteWith (s d : DBRow) : rowKey (overwriteWith s d) = rowKey d := by
  unfold overwriteWith
  split <;> rfl

theorem overwriteWith_key_eq {s d : DBRow} (h : rowKey d = rowKey s) :
    overwriteWith s d = s := by
  cases s with
  | mk sn si sy sv =>
    cases d with
    | mk dn di dy dv =>
      simp only [rowKey, Prod.mk.injEq] at h
      unfold overwriteWith
      simp [rowKey, h.1, h.2]

theorem overwriteWith_key_ne {s d : DBRow} (h : ¬ rowKey d = rowKey s) :
    overwriteWith s d = d := by
  unfold overwriteWith
  rw [if_neg (by simpa using h)]

theorem lookupKey_map_overwrite (dest : DBTable) (s : DBRow)
    (h : dest.any (fun d => rowKey d == rowKey s) = true) :
    lookupKey (dest.map (overwriteWith s)) (rowKey s) = some s := by
  induction dest with
  | nil => simp at h
  | cons a l ih =>
    by_cases ha : rowKey a = rowKey s
    · have hp : (fun r => rowKey r == rowKey s) (overwriteWith s a) = true := by
        simp [rowKey_overwriteWith, ha]
      rw [List.map_cons, lookupKey,
        List.find?_cons_of_pos (p := fun r => rowKey r == rowKey s) _ hp,
        overwriteWith_key_eq ha]
    · have hp : ¬ ((fun r => rowKey r == rowKey s) (overwriteWith s a) = true) := by
        simp [rowKey_overwriteWith, ha]
      have hl : l.any (fun d => rowKey d == rowKey s) = true := by
        rcases List.any_eq_true.mp h with ⟨d, hd, hdp⟩
        rcases List.mem_cons.mp hd with rfl | hdl
        · exact absurd (by simpa using hdp) ha
        · exact List.any_eq_true.mpr ⟨d, hdl, hdp⟩
      rw [List.map_cons, lookupKey,
        List.find?_cons_of_neg (p := fun r => rowKey r == rowKey s) _ hp]
      exact ih hl

theorem lookupKey_map_overwrite_other (dest : DBTable) (s : DBRow) (k : String × Int)
    (hk : k ≠ rowKey s) :
    lookupKey (dest.map (overwriteWith s)) k = lookupKey dest k := by
  induction dest with
  | nil => rfl
  | cons a l ih =>
    by_cases ha : rowKey a = k
    · have hp : (fun r => rowKey r == k) (overwriteWith s a) = true := by
        simp [rowKey_overwriteWith, ha]
      have has : ¬ rowKey a = rowKey s := by
        rw [ha]; exact hk
      rw [List.map_cons, lookupKey,
        List.find?_cons_of_pos (p := fun r => rowKey r == k) _ hp, lookupKey,
        List.find?_cons_of_pos (p := fun r => rowKey r == k) _ (by simp [ha]),
        overwriteWith_key_ne has]
    · have hp : ¬ ((fun r => rowKey r == k) (overwriteWith s a) = true) := by
        simp [rowKey_overwriteWith, ha]
      rw [List.map_cons, lookupKey,
        List.find?_cons_of_neg (p := fun r => rowKey r == k) _ hp, lookupKey,
        List.find?_cons_of_neg (p := fun r => rowKey r == k) _ (by simp [ha])]
      exact ih

theorem lookupKey_append_single (dest : DBTable) (s : DBRow) (k : String × Int) :
    lookupKey (dest ++ [s]) k =
      ((lookupKey dest k).orElse (fun _ => lookupKey [s] k)) := by
  induction dest with
  | nil => rfl
  | cons a l ih =>
    by_cases ha : rowKey a = k
    · rw [List.cons_append, lookupKey,
        List.find?_cons_of_pos (p := fun r => rowKey r == k) _ (by simp [ha]),
        lookupKey,
        List.find?_cons_of_pos (p := fun r => rowKey r == k) _ (by simp [ha])]
      rfl
    · rw [List.cons_append, lookupKey,
        List.find?_cons_of_neg (p := fun r => rowKey r == k) _ (by simp [ha]),
        lookupKey,
        List.find?_cons_of_neg (p := fun r => rowKey r == k) _ (by simp [ha])]
      exact ih

theorem lookupKey_upsertRow_self (dest : DBTable) (s : DBRow) :
    lookupKey (upsertRow dest s) (rowKey s) = some s := by
  unfold upsertRow
  by_cases h : dest.any (fun d => rowKey d == rowKey s) = true
  · rw [if_pos h]
    exact lookupKey_map_overwrite dest s h
  · rw [if_neg h, lookupKey_append_single]
    have hnone : lookupKey dest (rowKey s) = none := by
      rw [lookupKey, List.find?_eq_none]
      intro d hd hbeq
      exact h (List.any_eq_true.mpr ⟨d, hd, hbeq⟩)
    rw [hnone]
    simp [lookupKey, List.find?]

theorem lookupKey_upsertRow_other (dest : DBTable) (s : DBRow) (k : String × Int)
    (hk : k ≠ rowKey s) :
    lookupKey (upsertRow dest s) k = lookupKey dest k := by
  unfold upsertRow
  split
  · exact lookupKey_map_overwrite_other dest s k hk
  · rw [lookupKey_append_single]
    have hone : lookupKey [s] k = none := by
      rw [lookupKey, List.find?_eq_none]
      intro d hd hbeq
      have hds : d = s := List.mem_singleton.mp hd
      rw [hds] at hbeq
      have hks : rowKey s = k := by simpa using hbeq
      exact hk hks.symm
    rw [hone]
    cases lookupKey dest k <;> rfl

theorem map_rowKey_map_overwrite (dest : DBTable) (s : DBRow) :
    (dest.map (overwriteWith s)).map rowKey = dest.map rowKey := by
  rw [List.map_map]
  exact List.map_congr_left (fun d _ => rowKey_overwriteWith s d)

theorem nodupKeys_upsertRow (dest : DBTable) (s : DBRow) (h : nodupKeys dest) :
    nodupKeys (upsertRow dest s) := by
  unfold upsertRow
  split
  · unfold nodupKeys
    rw [map_rowKey_map_overwrite]
    exact h
  · rename_i hany
    unfold nodupKeys
    rw [List.map_append]
    rw [List.nodup_append]
    refine ⟨h, List.nodup_singleton _, ?_⟩
    intro x hx hxs
    rcases List.mem_singleton.mp hxs with rfl
    rcases List.mem_map.mp hx with ⟨d, hd, hkey⟩
    exact hany (List.any_eq_true.mpr ⟨d, hd, by simp [hkey]⟩)

theorem merge_cons (dest : DBTable) (s : DBRow) (ss : DBTable) :
    merge dest (s :: ss) = merge (upsertRow dest s) ss := rfl

theorem nodupKeys_merge (dest staging : DBTable) (h : nodupKeys dest) :
    nodupKeys (merge dest staging) := by
  induction staging generalizing dest with
  | nil => exact h
  | cons s ss ih => exact ih _ (nodupKeys_upsertRow dest s h)

theorem lookupKey_merge_not_staged (dest staging : DBTable) (k : String × Int)
    (hk : k ∉ staging.map rowKey) :
    lookupKey (merge dest staging) k = lookupKey dest k := by
  induction staging generalizing dest with
  | nil => rfl
  | cons s ss ih =>
    rw [List.map_cons, List.mem_cons] at hk
    push_neg at hk
    rw [merge_cons, ih _ hk.2, lookupKey_upsertRow_other dest s k hk.1]

theorem lookupKey_merge_staged (dest staging : DBTable) (h : nodupKeys staging)
    (s : DBRow) (hs : s ∈ staging) :
    lookupKey (merge dest staging) (rowKey s) = some s := by
  induction staging generalizing dest with
  | nil => cases hs
  | cons a ss ih =>
    have hmk : (rowKey a :: ss.map rowKey).Nodup := by
      simpa only [nodupKeys, List.map_cons] using h
    have h' := List.nodup_cons.mp hmk
    rcases List.mem_cons.mp hs with rfl | hmem
    · rw [merge_cons, lookupKey_merge_not_staged _ _ _ h'.1,
        lookupKey_upsertRow_self]
    · rw [merge_cons]
      exact ih _ h'.2 hmem

theorem mem_upsertRow {dest : DBTable} {s r : DBRow} (hr : r ∈ upsertRow dest s) :
    r = s ∨ (r ∈ dest ∧ rowKey r ≠ rowKey s) := by
  unfold upsertRow at hr
  split at hr
  · rename_i hany
    rcases List.mem_map.mp hr with ⟨d, hd, rfl⟩
    by_cases hk : rowKey d = rowKey s
    · exact Or.inl (overwriteWith_key_eq hk)
    · rw [overwriteWith_key_ne hk]
      exact Or.inr ⟨hd, hk⟩
  · rename_i hany
    rcases List.mem_append.mp hr with hd | hs1
    · refine Or.inr ⟨hd, fun hk => ?_⟩
      exact hany (List.any_eq_true.mpr ⟨r, hd, by simp [hk]⟩)
    · exact Or.inl (List.mem_singleton.mp hs1)

theorem mem_merge {dest staging : DBTable} {r : DBRow}
    (hr : r ∈ merge dest staging) :
    r ∈ staging ∨ (r ∈ dest ∧ rowKey r ∉ staging.map rowKey) := by
  induction staging generalizing dest with
  | nil => exact Or.inr ⟨hr, by simp⟩
  | cons s ss ih =>
    rw [merge_cons] at hr
    rcases ih hr with hss | ⟨hup, hnot⟩
    · exact Or.inl (List.mem_cons_of_mem _ hss)
    · rcases mem_upsertRow hup with rfl | ⟨hd, hne⟩
      · exact Or.inl (List.mem_cons_self _ _)
      · refine Or.inr ⟨hd, ?_⟩
        rw [List.map_cons, List.mem_cons]
        push_neg
        exact ⟨hne, hnot⟩

theorem key_unique {M : DBTable} (hM : nodupKeys M) {d d' : DBRow}
    (hd : d ∈ M) (hd' : d' ∈ M) (hk : rowKey d = rowKey d') : d = d' :=
  List.inj_on_of_nodup_map hM hd hd' hk

theorem lookupKey_self_of_nodup {M : DBTable} (hM : nodupKeys M) {d : DBRow}
    (hd : d ∈ M) : lookupKey M (rowKey d) = some d := by
  induction M with
  | nil => cases hd
  | cons a l ih =>
    have hmk : (rowKey a :: l.map rowKey).Nodup := by
      simpa only [nodupKeys, List.map_cons] using hM
    have h' := List.nodup_cons.mp hmk
    rcases List.mem_cons.mp hd with rfl | hmem
    · rw [lookupKey, List.find?_cons_of_pos _ (by simp)]
    · by_cases hk : rowKey a = rowKey d
      · exact absurd (hk ▸ List.mem_map_of_mem rowKey hmem) h'.1
      · rw [lookupKey, List.find?_cons_of_neg _ (by simp [hk])]
        exact ih h'.2 hmem

theorem upsertRow_eq_self (M : DBTable) (s : DBRow) (hM : nodupKeys M)
    (hs : s ∈ M) : upsertRow M s = M := by
  unfold upsertRow
  rw [if_pos (List.any_eq_true.mpr ⟨s, hs, by simp⟩)]
  have hpt : ∀ d ∈ M, overwriteWith s d = d := by
    intro d hd
    by_cases hk : rowKey d = rowKey s
    · rw [overwriteWith_key_eq hk, key_unique hM hd hs hk]
    · exact overwriteWith_key_ne hk
  calc M.map (overwriteWith s) = M.map id := List.map_congr_left hpt
    _ = M := List.map_id M

theorem foldl_upsert_fixed (M : DBTable) (l : List DBRow)
    (h : ∀ s ∈ l, upsertRow M s = M) : l.foldl upsertRow M = M := by
  induction l with
  | nil => rfl
  | cons a t ih =>
    rw [List.foldl_cons, h a (List.mem_cons_self _ _)]
    exact ih (fun s hs => h s (List.mem_cons_of_mem _ hs))

/-! ## Validation helpers -/

theorem validateWide_ok (t : WideTable)
    (h : (schemaViolations t).isEmpty = true) : validateWide t = Except.ok t := by
  unfold validateWide
  rw [if_pos h]

theorem validateWide_error (t : WideTable)
    (h : ¬ ((schemaViolations t).isEmpty = true)) :
    validateWide t = Except.error (schemaViolations t) := by
  unfold validateWide
  rw [if_neg h]

/-! ## Pivot lemmas -/

theorem filter_key_filter (rs : List Record) (p : Record → Bool)
    (hp : ∀ r, p r = true → (keyOf r).isSome = true) :
    (rs.filter (fun r => (keyOf r).isSome)).filter p = rs.filter p := by
  rw [List.filter_filter]
  apply List.filter_congr
  intro r _
  cases hpr : p r
  · simp
  · simp [hp r hpr]

theorem any_key_filter (rs : List Record) (p : Record → Bool)
    (hp : ∀ r, p r = true → (keyOf r).isSome = true) :
    (rs.filter (fun r => (keyOf r).isSome)).any p = rs.any p := by
  induction rs with
  | nil => rfl
  | cons a l ih =>
    by_cases hk : (keyOf a).isSome = true
    · rw [List.filter_cons_of_pos (p := fun r => (keyOf r).isSome) hk,
        List.any_cons, List.any_cons, ih]
    · have hpa : p a = false := by
        cases hpa : p a
        · rfl
        · exact absurd (hp a hpa) hk
      rw [List.filter_cons_of_neg (p := fun r => (keyOf r).isSome) hk,
        List.any_cons, hpa, ih]
      rfl

theorem cellValues_pred_key (k : Key) (c : String) (r : Record)
    (h : (keyOf r == some k && r.indicator_code == some c) = true) :
    (keyOf r).isSome = true := by
  rw [Bool.and_eq_true] at h
  rw [beq_iff_eq.mp h.1]
  rfl

theorem hasValue_pred_key (k : Key) (r : Record)
    (h : (keyOf r == some k && r.value.isSome && r.indicator_code.isSome) = true) :
    (keyOf r).isSome = true := by
  rw [Bool.and_eq_true, Bool.and_eq_true] at h
  rw [beq_iff_eq.mp h.1.1]
  rfl

theorem grouped_key (r : Record) (h : grouped r = true) :
    (keyOf r).isSome = true := by
  rw [grouped, Bool.and_eq_true] at h
  exact h.1

/-! ## Claim theorems -/

/-- C2: for every destination table state and every ValidatedTable (modelled
as the staging rows, whose `(country_iso3, year)` keys are unique), the
`INSERT ... ON CONFLICT DO UPDATE` merge is such that (1) the result has one
row per key, (2) every staging row's key maps to exactly the staging row —
an existing row has every non-key column, `country_name` included,
overwritten, and a new key is inserted — (3) destination rows with keys not
in staging are untouched, and (4) no other rows exist. -/
theorem C2_merge_upsert_semantics (dest staging : DBTable)
    (hdest : nodupKeys dest) (hstag : nodupKeys staging) :
    nodupKeys (merge dest staging)
    ∧ (∀ s ∈ staging, lookupKey (merge dest staging) (rowKey s) = some s)
    ∧ (∀ d ∈ dest, rowKey d ∉ staging.map rowKey →
        lookupKey (merge dest staging) (rowKey d) = some d)
    ∧ (∀ r ∈ merge dest staging,
        r ∈ staging ∨ (r ∈ dest ∧ rowKey r ∉ staging.map rowKey)) := by
  refine ⟨nodupKeys_merge dest staging hdest,
    fun s hs => lookupKey_merge_staged dest staging hstag s hs,
    fun d hd hnot => ?_,
    fun r hr => mem_merge hr⟩
  rw [lookupKey_merge_not_staged dest staging _ hnot]
  exact lookupKey_self_of_nodup hdest hd

/-- Witness for C2: the spec's concrete scenario.  The destination holds
`(NGA, 2020, food_production_idx = 100.0)`; upserting the staging row
`(Nigeria, NGA, 2020, food_production_idx = 105.0)` leaves exactly the
staging row stored under the key `(NGA, 2020)`, with unique keys. -/
theorem C2_merge_upsert_semantics_witness :
    nodupKeys (merge [ngaDest] [ngaStaging])
    ∧ lookupKey (merge [ngaDest] [ngaStaging]) ("NGA", 2020) = some ngaStaging := by
  have h := C2_merge_upsert_semantics [ngaDest] [ngaStaging] (by decide) (by decide)
  exact ⟨h.1, h.2.1 ngaStaging (List.mem_singleton.mpr rfl)⟩

/-- C3: the upsert is idempotent — merging the same staging rows a second
time leaves the destination exactly as after the first merge, with keys
still unique. -/
theorem C3_upsert_idempotent (dest staging : DBTable)
    (hdest : nodupKeys dest) (hstag : nodupKeys staging) :
    merge (merge dest staging) staging = merge dest staging
    ∧ nodupKeys (merge dest staging) := by
  refine ⟨?_, nodupKeys_merge dest staging hdest⟩
  apply foldl_upsert_fixed
  intro s hs
  exact upsertRow_eq_self _ _ (nodupKeys_merge dest staging hdest)
    (List.mem_of_find?_eq_some (lookupKey_merge_staged dest staging hstag s hs))

/-- Witness for C3: loading the concrete one-row staging table twice into an
initially empty destination gives the same contents as loading it once. -/
theorem C3_upsert_idempotent_witness :
    merge (merge [] [ngaStaging]) [ngaStaging] = merge [] [ngaStaging] :=
  (C3_upsert_idempotent [] [ngaStaging] (by decide) (by decide)).1

/-- C1 (code bug): the claim demands that the serialized staging row order
match the destination column order.  It does not: for the validated wide
table carrying all eleven indicators, `pivot_table` emits the indicator
columns sorted lexicographically by indicator code, while
`create_metric_table` declares them in catalog order, so the header-less
CSV fed to `COPY` lands values in differently-named destination columns
(all of `FLOAT` type, hence silently). -/
theorem C1_copy_column_order_mismatch :
    transform_to_dataframe (Artifact.present full11)
      = Except.ok (pivotTable (full11.map toRecord))
    ∧ validateWide (pivotTable (full11.map toRecord))
      = Except.ok (pivotTable (full11.map toRecord))
    ∧ (pivotTable (full11.map toRecord)).columns
      = [ "country_name", "country_iso3", "year",
          "agricultural_land_pct", "crop_production_idx", "food_production_idx",
          "cereal_yield_kg_per_hectare", "food_cpi_2010_base_100",
          "gdp_per_capita_usd", "population_growth_annual_pct",
          "population_total", "population_urban_pct",
          "food_imports_pct_merch", "food_exports_pct_merch" ]
    ∧ create_metric_table_columns
      = [ "country_name", "country_iso3", "year",
          "food_production_idx", "cereal_yield_kg_per_hectare",
          "crop_production_idx", "agricultural_land_pct",
          "gdp_per_capita_usd", "food_cpi_2010_base_100",
          "food_imports_pct_merch", "food_exports_pct_merch",
          "population_total", "population_urban_pct",
          "population_growth_annual_pct" ]
    ∧ (pivotTable (full11.map toRecord)).columns ≠ create_metric_table_columns := by
  refine ⟨rfl, validateWide_ok _ (by decide), by decide, by decide, by decide⟩

/-- C4 (code bug): when zero records are collected overall,
`extract_world_bank_data` does not raise — no code path of the function
raises after the per-indicator `try`/`except` — it logs an error and
`return None`s (the same `None` a successful run returns), merely skipping
the artifact write. -/
theorem C4_zero_records_returns_none :
    (∀ outcomes : List FetchOutcome, (extract_world_bank_data outcomes).raised = false)
    ∧ extract_world_bank_data (List.replicate 11 FetchOutcome.httpError)
      = { raised := false, artifact := none } := by
  constructor
  · intro outcomes
    simp only [extract_world_bank_data]
    split <;> rfl
  · rfl

/-- C5 counterexample: with the artifact file absent, `transform_to_dataframe`
does not return an empty WideTable — `open(json_folder, "r")` raises
`FileNotFoundError`. -/
theorem C5_cex_absent_artifact_raises :
    transform_to_dataframe Artifact.absent = Except.error "FileNotFoundError" := rfl

/-- C5 amended: an artifact file containing an empty list yields an empty
WideTable (no columns, no rows) without error, but an absent artifact file
raises `FileNotFoundError`. -/
theorem C5_amended_empty_ok_absent_raises :
    transform_to_dataframe (Artifact.present []) = Except.ok emptyWide
    ∧ emptyWide.columns = []
    ∧ emptyWide.keys = []
    ∧ transform_to_dataframe Artifact.absent = Except.error "FileNotFoundError" :=
  ⟨rfl, rfl, rfl, rfl⟩

/-- C6 (code bug): a failure while deleting the intermediate artifact after
the committed merge is not merely a logged warning — the `except` block logs
the warning and then executes a bare `raise`, so the load stage fails even
though the destination holds exactly the merged rows it holds on the
success path. -/
theorem C6_cleanup_failure_reraises :
    load_dataframe_to_postgres [] [ngaStaging] true
      = LoadResult.raisedAfterCommit (merge [] [ngaStaging])
          "Failed to delete temporary file"
    ∧ load_dataframe_to_postgres [] [ngaStaging] false
      = LoadResult.ok (merge [] [ngaStaging]) :=
  ⟨rfl, rfl⟩

/-- C7 counterexample: a WideTable that merely lacks the non-essential
indicator column `food_production_idx` (because that indicator had no
observations in the artifact) is NOT accepted: pandera columns are
`required` by default, so `validate_data` raises with exactly the
missing-column violation. -/
theorem C7_cex_missing_column_rejected :
    transform_to_dataframe (Artifact.present missing10)
      = Except.ok (pivotTable (missing10.map toRecord))
    ∧ "food_production_idx" ∉ (pivotTable (missing10.map toRecord)).columns
    ∧ validateWide (pivotTable (missing10.map toRecord))
      = Except.error ["column not in dataframe: food_production_idx"] := by
  refine ⟨rfl, by decide, ?_⟩
  rw [validateWide_error _ (by decide),
    show schemaViolations (pivotTable (missing10.map toRecord))
      = ["column not in dataframe: food_production_idx"] from by decide]

/-- C7 amended: validation enforces the exact column set symmetrically —
a table with a column beyond the declared fixed-plus-indicator set fails
(`strict=True`), and a table missing a declared column also fails (every
`pa.Column` is `required` by default), in both cases with a non-empty
violation set. -/
theorem C7_amended_exact_column_set_symmetric (t : WideTable) (c : String)
    (h : (c ∈ t.columns ∧ c ∉ schemaColumns) ∨ (c ∈ schemaColumns ∧ c ∉ t.columns)) :
    ∃ errs, validateWide t = Except.error errs ∧ errs ≠ [] := by
  have hmem : ∃ v, v ∈ schemaViolations t := by
    rcases h with ⟨hc, hns⟩ | ⟨hs, hnc⟩
    · refine ⟨"column not in schema: " ++ c, ?_⟩
      have hv : ("column not in schema: " ++ c) ∈ strictViolations t :=
        List.mem_map.mpr ⟨c, List.mem_filter.mpr ⟨hc, by simpa using hns⟩, rfl⟩
      unfold schemaViolations
      simp only [List.mem_append]
      tauto
    · refine ⟨"column not in dataframe: " ++ c, ?_⟩
      have hv : ("column not in dataframe: " ++ c) ∈ requiredViolations t :=
        List.mem_map.mpr ⟨c, List.mem_filter.mpr ⟨hs, by simpa using hnc⟩, rfl⟩
      unfold schemaViolations
      simp only [List.mem_append]
      tauto
  rcases hmem with ⟨v, hv⟩
  have hne : schemaViolations t ≠ [] := List.ne_nil_of_mem hv
  exact ⟨schemaViolations t,
    validateWide_error t (fun hemp => hne (List.isEmpty_iff.mp hemp)), hne⟩

/-- Witness for C7 amended: the wide table built from `extra12` carries the
unexpected column `XX.FAKE.CODE` and is rejected with a non-empty
violation set. -/
theorem C7_amended_exact_column_set_symmetric_witness :
    ∃ errs, validateWide (pivotTable (extra12.map toRecord)) = Except.error errs
      ∧ errs ≠ [] :=
  C7_amended_exact_column_set_symmetric (pivotTable (extra12.map toRecord))
    "XX.FAKE.CODE" (Or.inl ⟨by decide, by decide⟩)

/-- C8 counterexample: the pivot does NOT give a unique
`(country_iso3, year)` pair per row — its index is the full
(country_name, country_iso3, year) triple, so the same `(NGA, 2020)`
arriving under two country names yields two rows. -/
theorem C8_cex_pivot_duplicate_pair :
    transform_to_dataframe (Artifact.present dupNameEntries)
      = Except.ok (pivotTable (dupNameEntries.map toRecord))
    ∧ (pivotTable (dupNameEntries.map toRecord)).keys
      = [("Nigeria", "NGA", 2020), ("Federal Nigeria", "NGA", 2020)]
    ∧ pairKeys (pivotTable (dupNameEntries.map toRecord))
      = [("NGA", 2020), ("NGA", 2020)]
    ∧ ¬ (pairKeys (pivotTable (dupNameEntries.map toRecord))).Nodup :=
  ⟨rfl, by decide, by decide, by decide⟩

/-- C8 amended: the pivot structurally guarantees uniqueness of its full
(country_name, country_iso3, year) index triple per row — not of the
`(country_iso3, year)` pair alone — and the Validator
(`unique=["country_iso3", "year"]`) rejects every table in which some
pair occurs in two rows. -/
theorem C8_amended_triple_unique_validator_rejects_pairs :
    (∀ rs : List Record, (pivotTable rs).keys.Nodup)
    ∧ (∀ t : WideTable, ¬ (pairKeys t).Nodup →
        ∃ errs, validateWide t = Except.error errs
          ∧ "(country_iso3, year) pair duplicated" ∈ errs) := by
  constructor
  · intro rs
    exact List.Nodup.filter _ (List.nodup_dedup _)
  · intro t hd
    have hu : uniqueViolations t = ["(country_iso3, year) pair duplicated"] := by
      unfold uniqueViolations
      rw [if_neg hd]
    have hm : "(country_iso3, year) pair duplicated" ∈ schemaViolations t := by
      unfold schemaViolations
      simp only [List.mem_append, hu]
      simp
    refine ⟨schemaViolations t, validateWide_error t ?_, hm⟩
    intro hemp
    rw [List.isEmpty_iff.mp hemp] at hm
    cases hm

/-- Witness for C8 amended: instantiated at the duplicate-pair table built
from `dupNameEntries` — its triples are pairwise distinct, and the
Validator rejects it with the duplicated-pair violation. -/
theorem C8_amended_triple_unique_validator_rejects_pairs_witness :
    (pivotTable (dupNameEntries.map toRecord)).keys.Nodup
    ∧ ∃ errs, validateWide (pivotTable (dupNameEntries.map toRecord))
        = Except.error errs ∧ "(country_iso3, year) pair duplicated" ∈ errs :=
  ⟨C8_amended_triple_unique_validator_rejects_pairs.1 _,
    C8_amended_triple_unique_validator_rejects_pairs.2 _ (by decide)⟩

/-- C9: colliding raw observations for one
(country_iso3, year, indicator_code) group are reduced to the arithmetic
mean of their non-null values (pandas `pivot_table` default
`aggfunc="mean"`), not to the last observation by input order: the cell is
invariant under any permutation of the input records, and the concrete
group with values 100, null, 106 (in that order) yields
`(100 + 106) / 2 = 103`, not the last observation 106. -/
theorem C9_pivot_mean_not_last :
    (∀ (rs rt : List Record) (k : Key) (c : String),
      rs.Perm rt → cell rs k c = cell rt k c)
    ∧ cellValues (dupEntries.map toRecord) ("Nigeria", "NGA", 2020) "AG.PRD.FOOD.XD"
      = [100, 106]
    ∧ (pivotTable (dupEntries.map toRecord)).cellAt
        ("Nigeria", "NGA", 2020) "food_production_idx" = some 103
    ∧ (103 : ℚ) = ([100, 106] : List ℚ).sum / (([100, 106] : List ℚ).length : ℚ)
    ∧ (cellValues (dupEntries.map toRecord) ("Nigeria", "NGA", 2020)
        "AG.PRD.FOOD.XD").getLast? = some 106
    ∧ (103 : ℚ) ≠ 106 := by
  refine ⟨?_, by decide, by decide, ?_, by decide, by decide⟩
  · intro rs rt k c hp
    have hcv : (cellValues rs k c).Perm (cellValues rt k c) :=
      List.Perm.filterMap _ (List.Perm.filter _ hp)
    have hsum : qSum (cellValues rs k c) = qSum (cellValues rt k c) := by
      rw [qSum_eq_sum, qSum_eq_sum]
      exact List.Perm.sum_eq hcv
    have hlen : (cellValues rs k c).length = (cellValues rt k c).length :=
      List.Perm.length_eq hcv
    have hb : ∀ l : List ℚ, l.isEmpty = decide (l.length = 0) := by
      intro l
      cases l <;> simp
    have hemp : (cellValues rs k c).isEmpty = (cellValues rt k c).isEmpty := by
      rw [hb, hb, hlen]
    rw [cell, cell, hemp, hsum, hlen]
  · rw [List.length_cons, List.length_cons, List.length_nil, List.sum_cons,
      List.sum_cons, List.sum_nil]
    norm_num

/-- Witness for C9: the permutation-invariance applied to the reversal of
the colliding records. -/
theorem C9_pivot_mean_not_last_witness :
    cell ((dupEntries.map toRecord).reverse) ("Nigeria", "NGA", 2020) "AG.PRD.FOOD.XD"
      = cell (dupEntries.map toRecord) ("Nigeria", "NGA", 2020) "AG.PRD.FOOD.XD" :=
  C9_pivot_mean_not_last.1 _ _ _ _ (List.reverse_perm _)

/-- C10: raw records with a null grouping key (country_name, country_iso3,
or year — including years that fail numeric coercion) are silently dropped
by the pivot (removing them changes nothing), every surviving row is backed
by a record with fully non-null keys and a non-null observation (so
all-null groups yield no row), the transform never raises on a present
artifact, and the concrete unparseable-year and all-null-group artifacts
produce no rows. -/
theorem C10_null_keys_and_all_null_groups_dropped :
    (∀ rs : List Record,
      pivotTable (rs.filter (fun r => (keyOf r).isSome)) = pivotTable rs)
    ∧ (∀ (rs : List Record) (k : Key), k ∈ (pivotTable rs).keys →
        ∃ r, r ∈ rs ∧ keyOf r = some k ∧ r.indicator_code.isSome = true
          ∧ r.value.isSome = true)
    ∧ (∀ es : List RawEntry,
        ∃ t, transform_to_dataframe (Artifact.present es) = Except.ok t)
    ∧ (pivotTable ([mkEntry "Nigeria" "NGA" "n/a" "AG.PRD.FOOD.XD" (some 1)].map
        toRecord)).keys = []
    ∧ (pivotTable ([mkEntry "Nigeria" "NGA" "2020" "AG.PRD.FOOD.XD" none].map
        toRecord)).keys = [] := by
  refine ⟨?_, ?_, ?_, by decide, by decide⟩
  · intro rs
    have hgrouped : (rs.filter (fun r => (keyOf r).isSome)).filter grouped
        = rs.filter grouped :=
      filter_key_filter rs grouped grouped_key
    have hcv : ∀ (k : Key) (c : String),
        cellValues (rs.filter (fun r => (keyOf r).isSome)) k c = cellValues rs k c := by
      intro k c
      unfold cellValues
      rw [filter_key_filter rs _ (cellValues_pred_key k c)]
    have hcell : ∀ (k : Key) (c : String),
        cell (rs.filter (fun r => (keyOf r).isSome)) k c = cell rs k c := by
      intro k c
      rw [cell, cell, hcv]
    have hhv : ∀ k : Key,
        hasValue (rs.filter (fun r => (keyOf r).isSome)) k = hasValue rs k := by
      intro k
      unfold hasValue
      exact any_key_filter rs _ (hasValue_pred_key k)
    have hrk : rowKeys (rs.filter (fun r => (keyOf r).isSome)) = rowKeys rs := by
      unfold rowKeys
      rw [hgrouped,
        show (fun k => hasValue (rs.filter (fun r => (keyOf r).isSome)) k)
          = (fun k => hasValue rs k) from funext hhv]
    have hcodes : pivotCodes (rs.filter (fun r => (keyOf r).isSome))
        = pivotCodes rs := by
      unfold pivotCodes
      rw [hgrouped, hrk,
        show (fun c => (rowKeys rs).any
            (fun k => (cell (rs.filter (fun r => (keyOf r).isSome)) k c).isSome))
          = (fun c => (rowKeys rs).any (fun k => (cell rs k c).isSome))
          from funext (fun c => by
            rw [show (fun k => (cell (rs.filter (fun r => (keyOf r).isSome)) k c).isSome)
                = (fun k => (cell rs k c).isSome) from funext (fun k => by rw [hcell])])]
    apply WideTable.ext
    · show _ ++ (pivotCodes _).map renameCol = _ ++ (pivotCodes rs).map renameCol
      rw [hcodes]
    · exact hrk
    · funext k col
      show (match (pivotCodes (rs.filter (fun r => (keyOf r).isSome))).find?
          (fun c => renameCol c == col) with
        | some c => cell (rs.filter (fun r => (keyOf r).isSome)) k c
        | none => none)
        = (match (pivotCodes rs).find? (fun c => renameCol c == col) with
        | some c => cell rs k c
        | none => none)
      rw [hcodes]
      cases (pivotCodes rs).find? (fun c => renameCol c == col) with
      | some c => exact hcell k c
      | none => rfl
  · intro rs k hk
    have hk' : hasValue rs k = true := (List.mem_filter.mp hk).2
    rcases List.any_eq_true.mp hk' with ⟨r, hr, hpred⟩
    rw [Bool.and_eq_true, Bool.and_eq_true] at hpred
    exact ⟨r, hr, beq_iff_eq.mp hpred.1.1, hpred.2, hpred.1.2⟩
  · intro es
    by_cases he : es.isEmpty
    · refine ⟨emptyWide, ?_⟩
      show (if es.isEmpty then Except.ok emptyWide
        else Except.ok (pivotTable (es.map toRecord))) = Except.ok emptyWide
      rw [if_pos he]
    · refine ⟨pivotTable (es.map toRecord), ?_⟩
      show (if es.isEmpty then Except.ok emptyWide
        else Except.ok (pivotTable (es.map toRecord)))
        = Except.ok (pivotTable (es.map toRecord))
      rw [if_neg he]

/-- Witness for C10: the surviving row of the full artifact is backed by a
fully non-null record, per the second component of the theorem. -/
theorem C10_null_keys_and_all_null_groups_dropped_witness :
    ∃ r, r ∈ full11.map toRecord ∧ keyOf r = some ("Nigeria", "NGA", 2020)
      ∧ r.indicator_code.isSome = true ∧ r.value.isSome = true :=
  C10_null_keys_and_all_null_groups_dropped.2.1 (full11.map toRecord)
    ("Nigeria", "NGA", 2020) (by decide)

end WB
